import Mathlib

/-!
Shallow embedding of `jux/unit.py` (module `jux.unit`): the `Unit` record,
its resource-transfer arithmetic, its action-queue advance logic, and the
two-way interchange with the legacy object model.

Machine `int32` values are embedded as `ℤ` (all the claimed properties are
clamping/ordering facts whose arithmetic stays far from the 32-bit range on
the inputs considered).  Branchless `jax.lax.cond` / `jax.lax.switch`
dispatches are embedded as the corresponding pure case distinctions.

The repository only ships `jux/unit.py`; the collaborator modules
(`jux.actions`, `jux.config`, `jux.unit_cargo`, `jux.map.position`, and the
legacy `luxai2022` object model) are modelled from the spec, as marked on
each definition.
-/

namespace jux

/-- Modelled from the spec: per-class constant table `UnitConfig`
(`jux.config` is not part of the sources).  The spec (§3, §6) lists
move cost, rubble movement cost multiplier, cargo capacity, battery
capacity, charge rate and initial power as nonnegative per-class
constants, so they are embedded as `ℕ`. -/
structure UnitConfig where
  MOVE_COST : ℕ
  RUBBLE_MOVEMENT_COST : ℕ
  CARGO_SPACE : ℕ
  BATTERY_CAPACITY : ℕ
  CHARGE : ℕ
  INIT_POWER : ℕ
deriving DecidableEq, Repr

/-- `UnitType` enum of `jux/unit.py` (`LIGHT = 0`, `HEAVY = 1`). -/
inductive UnitType where
  | LIGHT
  | HEAVY
deriving DecidableEq, Repr

/-- Modelled from the spec: the legacy engine's unit-class enum
(`luxai2022.unit.UnitType`, not part of the sources). -/
inductive LuxUnitType where
  | LIGHT
  | HEAVY
deriving DecidableEq, Repr

/-- `UnitType.from_lux` of `jux/unit.py`. -/
def UnitType.from_lux (lux_unit_type : LuxUnitType) : UnitType :=
  match lux_unit_type with
  | .LIGHT => .LIGHT
  | .HEAVY => .HEAVY

/-- `UnitType.to_lux` of `jux/unit.py`. -/
def UnitType.to_lux (self : UnitType) : LuxUnitType :=
  match self with
  | .LIGHT => .LIGHT
  | .HEAVY => .HEAVY

/-- `ResourceType` enum of `jux.unit_cargo` (modelled from the spec: the
resource kinds are the four cargo kinds plus power). -/
inductive ResourceType where
  | ice
  | ore
  | water
  | metal
  | power
deriving DecidableEq, Repr

/-- Cargo-slot index of a (non-power) resource kind. -/
def ResourceType.toIdx : ResourceType → ℕ
  | .ice => 0
  | .ore => 1
  | .water => 2
  | .metal => 3
  | .power => 4

/-- Modelled from the spec: `UnitCargo` of `jux.unit_cargo` (not part of the
sources) — per-resource-type integer amounts in a 4-slot stock vector. -/
structure UnitCargo where
  stock : List ℤ
deriving DecidableEq, Repr

/-- Total cargo currently carried (sum over the non-power resource slots). -/
def UnitCargo.total (self : UnitCargo) : ℤ := self.stock.sum

/-- Modelled from the spec (§4.1): cargo add — transfer
`min(cargo_space − current_total_cargo, amount)` into the requested slot
(the caller, `Unit.add_resource`, has already clamped `amount` to `≥ 0`).
Returns the new cargo and the actual transfer. -/
def UnitCargo.add_resource (self : UnitCargo) (resource : ResourceType) (amount : ℤ)
    (cargo_space : ℕ) : UnitCargo × ℤ :=
  let transfer_amount := min ((cargo_space : ℤ) - self.total) amount
  let i := resource.toIdx
  (⟨self.stock.set i (self.stock.getD i 0 + transfer_amount)⟩, transfer_amount)

/-- Modelled from the spec (§4.1): cargo sub — transfer
`min(current amount of that resource, amount)` out of the requested slot.
Returns the new cargo and the actual transfer. -/
def UnitCargo.sub_resource (self : UnitCargo) (resource : ResourceType) (amount : ℤ) :
    UnitCargo × ℤ :=
  let i := resource.toIdx
  let transfer_amount := min (self.stock.getD i 0) amount
  (⟨self.stock.set i (self.stock.getD i 0 - transfer_amount)⟩, transfer_amount)

/-- `Position` of `jux.map.position` (modelled from the spec: a 2-d integer
coordinate). -/
structure Position where
  x : ℤ
  y : ℤ
deriving DecidableEq, Repr

/-- Modelled from the spec: one encoded action entry
(`jux.actions.UnitAction`, not part of the sources): kind,
direction/target, resource, amount, a signed repeat counter and a count.
The field `rep` embeds the source field `repeat` (a reserved word here). -/
structure UnitAction where
  action_type : ℤ
  direction : ℤ
  resource : ℤ
  amount : ℤ
  rep : ℤ
  n : ℤ
deriving DecidableEq, Repr

/-- Modelled from the spec (§4.2): the canonical do-nothing entry
(kind = no-op, repeat = 0 — the all-zero encoding). -/
def UnitAction.do_nothing : UnitAction :=
  ⟨0, 0, 0, 0, 0, 0⟩

/-- Modelled from the spec (§4.2): `jux.actions.ActionQueue` (not part of
the sources) — a fixed-capacity ring buffer: an array of entry slots, a
front index and a count of valid entries.  The capacity is the length of
the slot array. -/
structure ActionQueue where
  data : List UnitAction
  front : ℕ
  count : ℕ
deriving DecidableEq, Repr

/-- Queue capacity: the number of slots. -/
def ActionQueue.capacity (self : ActionQueue) : ℕ := self.data.length

/-- Modelled from the spec (§4.2): `is_empty()` — the count is zero. -/
def ActionQueue.is_empty (self : ActionQueue) : Bool := self.count == 0

/-- Modelled from the spec (§4.2): `peek()` — the front slot when non-empty,
the do-nothing entry otherwise; never mutates. -/
def ActionQueue.peek (self : ActionQueue) : UnitAction :=
  if self.count = 0 then UnitAction.do_nothing
  else self.data.getD self.front UnitAction.do_nothing

/-- Modelled from the spec (§4.2): `pop()` — on an empty queue, the
do-nothing entry and no change; otherwise the front slot, with
`front := (front+1) mod capacity` and `count := count − 1`. -/
def ActionQueue.pop (self : ActionQueue) : UnitAction × ActionQueue :=
  if self.count = 0 then (UnitAction.do_nothing, self)
  else (self.data.getD self.front UnitAction.do_nothing,
        { self with front := (self.front + 1) % self.capacity, count := self.count - 1 })

/-- Modelled from the spec (§4.2): `push_back(entry)` — dropped silently when
full, otherwise written at slot `(front+count) mod capacity` with
`count := count + 1`. -/
def ActionQueue.push_back (self : ActionQueue) (entry : UnitAction) : ActionQueue :=
  if self.count = self.capacity then self
  else { self with
         data := self.data.set ((self.front + self.count) % self.capacity) entry,
         count := self.count + 1 }

/-- Modelled from the spec (§4.2): front-to-back enumeration of the valid
entries, the queue side of the interchange with the legacy linear-list
representation. -/
def ActionQueue.to_lux (self : ActionQueue) : List UnitAction :=
  (List.range self.count).map
    (fun i => self.data.getD ((self.front + i) % self.capacity) UnitAction.do_nothing)

/-- Modelled from the spec (§4.2, §7): build a queue from a legacy linear
list — entries in order from slot 0, padded with do-nothing slots up to the
capacity; a list exceeding the capacity is rejected (hard failure). -/
def ActionQueue.from_lux (acts : List UnitAction) (max_queue_size : ℕ) :
    Option ActionQueue :=
  if acts.length ≤ max_queue_size then
    some ⟨acts ++ List.replicate (max_queue_size - acts.length) UnitAction.do_nothing,
          0, acts.length⟩
  else none

/-- The `Unit` record of `jux/unit.py`: per-class config (copied), class,
action queue, team id, unit id, position, cargo and stored power. -/
structure Unit where
  unit_cfg : UnitConfig
  unit_type : UnitType
  action_queue : ActionQueue
  team_id : ℤ
  unit_id : ℤ
  pos : Position
  cargo : UnitCargo
  power : ℤ
deriving DecidableEq, Repr

/-- `Unit.cargo_space` property of `jux/unit.py`. -/
def Unit.cargo_space (self : Unit) : ℕ := self.unit_cfg.CARGO_SPACE

/-- `Unit.battery_capacity` property of `jux/unit.py`. -/
def Unit.battery_capacity (self : Unit) : ℕ := self.unit_cfg.BATTERY_CAPACITY

/-- `Unit.next_action` of `jux/unit.py`: peek the queue, and select the
do-nothing entry when the queue is empty (a `jax.lax.cond` selection). -/
def Unit.next_action (self : Unit) : UnitAction :=
  let act := self.action_queue.peek
  if self.action_queue.is_empty then UnitAction.do_nothing else act

/-- Inner helper `_repeat_minus_one` of `Unit.repeat_action`
(`jux/unit.py`): decrement the `repeat` field of the entry at the front
slot, in place. -/
def ActionQueue.repeat_minus_one (action_queue : ActionQueue) : ActionQueue :=
  let a := action_queue.data.getD action_queue.front UnitAction.do_nothing
  { action_queue with
    data := action_queue.data.set action_queue.front { a with rep := a.rep - 1 } }

/-- Inner helper `_pop_and_push_back` of `Unit.repeat_action`
(`jux/unit.py`): pop the front entry and push it back unchanged. -/
def ActionQueue.pop_and_push_back (action_queue : ActionQueue) : ActionQueue :=
  let popped := action_queue.pop
  popped.2.push_back popped.1

/-- Inner helper `_repeat_action` of `Unit.repeat_action` (`jux/unit.py`):
three-way `jax.lax.switch` on the sign of the front entry's `repeat` field —
index `(repeat>0)·1 + (repeat<0)·2` into `[discard-pop, decrement,
pop-and-push-back]`. -/
def Unit.repeat_action_core (self : Unit) : Unit :=
  let act := self.action_queue.peek
  let idx := (if act.rep > 0 then 1 else 0) + (if act.rep < 0 then 1 else 0) * 2
  let action_queue :=
    match idx with
    | 1 => self.action_queue.repeat_minus_one
    | 2 => self.action_queue.pop_and_push_back
    | _ => self.action_queue.pop.2
  { self with action_queue := action_queue }

/-- `Unit.repeat_action` of `jux/unit.py`: advance the queue only when the
action executed successfully and the queue is non-empty (a `jax.lax.cond`
selection). -/
def Unit.repeat_action (self : Unit) (success : Bool) : Unit :=
  if success && !self.action_queue.is_empty then self.repeat_action_core else self

/-- `Unit.is_heavy` of `jux/unit.py`. -/
def Unit.is_heavy (self : Unit) : Bool := self.unit_type == UnitType.HEAVY

/-- `Unit.move_power_cost` of `jux/unit.py`. -/
def Unit.move_power_cost (self : Unit) (rubble_at_target : ℤ) : ℤ :=
  (self.unit_cfg.MOVE_COST : ℤ) + (self.unit_cfg.RUBBLE_MOVEMENT_COST : ℤ) * rubble_at_target

/-- `Unit.add_resource` of `jux/unit.py`: clamp the requested amount to
`≥ 0`, then dispatch (a `jax.lax.cond` selection) to the power path —
transfer `min(battery_capacity − power, amount)` — or to the cargo path. -/
def Unit.add_resource (self : Unit) (resource : ResourceType) (amount : ℤ) :
    Unit × ℤ :=
  let amount := max amount 0
  if resource = ResourceType.power then
    let transfer_amount := min ((self.battery_capacity : ℤ) - self.power) amount
    ({ self with power := self.power + transfer_amount }, transfer_amount)
  else
    let r := self.cargo.add_resource resource amount self.cargo_space
    ({ self with cargo := r.1 }, r.2)

/-- `Unit.sub_resource` of `jux/unit.py`: dispatch (a `jax.lax.cond`
selection) to the power path — transfer `min(power, amount)` — or to the
cargo path.  Note: unlike `add_resource`, the requested amount is not
clamped to `≥ 0` first. -/
def Unit.sub_resource (self : Unit) (resource : ResourceType) (amount : ℤ) :
    Unit × ℤ :=
  if resource = ResourceType.power then
    let transfer_amount := min self.power amount
    ({ self with power := self.power - transfer_amount }, transfer_amount)
  else
    let r := self.cargo.sub_resource resource amount
    ({ self with cargo := r.1 }, r.2)

/-- `Unit.gain_power` of `jux/unit.py`:
`power := min(power + ceil(CHARGE · power_gain_factor), battery_capacity)`.
The floating-point gain factor is embedded as a rational. -/
def Unit.gain_power (self : Unit) (power_gain_factor : ℚ) : Unit :=
  let new_power := self.power + Int.ceil ((self.unit_cfg.CHARGE : ℚ) * power_gain_factor)
  { self with power := min new_power (self.battery_capacity : ℤ) }

/-- A Python value handed to `Unit.__eq__`: either a `Unit` or a foreign
value of some other type `α`. -/
inductive PyVal (α : Type) where
  | unitVal : Unit → PyVal α
  | foreign : α → PyVal α

/-- `Unit.__eq__` of `jux/unit.py`: `False` for any non-`Unit` argument
(the `isinstance` guard), otherwise the conjunction of field comparisons
written there (`unit_id` twice, `unit_type`, `action_queue`, `team_id`,
`pos`, `cargo`, `power`; `unit_cfg` is not compared). -/
def Unit.eq {α : Type} (self : Unit) (other : PyVal α) : Bool :=
  match other with
  | .foreign _ => false
  | .unitVal o =>
    let e1 := true && (self.unit_id == o.unit_id)
    let e2 := e1 && (self.unit_type == o.unit_type)
    let e3 := e2 && (self.action_queue == o.action_queue)
    let e4 := e3 && (self.team_id == o.team_id)
    let e5 := e4 && (self.unit_id == o.unit_id)
    let e6 := e5 && (self.pos == o.pos)
    let e7 := e6 && (self.cargo == o.cargo)
    e7 && (self.power == o.power)

/-! ### Decimal id strings

`Unit.to_lux` renders the numeric id as the Python f-string
`f"unit_{int(self.unit_id)}"`; `Unit.from_lux` recovers it with
`int(lux_unit.unit_id[len('unit_'):])`.  Python strings are embedded as
`List Char`; `str` of an integer and the `int` parser are embedded below
(the parser accepts an optional leading minus sign followed by decimal
digits, the fragment of Python `int` exercised here). -/

/-- The decimal digit character for a digit value `0..9` (code point
`48 + d`, reduced mod 10 to make the map total). -/
def digitChar (d : ℕ) : Char := Char.ofNat (48 + d % 10)

/-- The digit value of a decimal digit character (code points 48–57),
`none` on any other character. -/
def charDigit (c : Char) : Option ℕ :=
  if 48 ≤ c.toNat ∧ c.toNat ≤ 57 then some (c.toNat - 48) else none

/-- One step of the decimal parse: accumulate one more digit, `none` once
any non-digit has been seen. -/
def decStep (acc : Option ℕ) (c : Char) : Option ℕ :=
  match acc, charDigit c with
  | some a, some d => some (a * 10 + d)
  | _, _ => none

/-- Parse a non-empty all-digit character list as a natural number. -/
def decToNat (cs : List Char) : Option ℕ :=
  match cs with
  | [] => none
  | _ :: _ => cs.foldl decStep (some 0)

/-- Python `int(s)` on the fragment used by the id round trip: an optional
leading minus sign followed by one or more decimal digits; `none` embeds
the `ValueError` raised on anything else. -/
def pyInt (cs : List Char) : Option ℤ :=
  match cs with
  | [] => none
  | c :: rest =>
    if c = '-' then (decToNat rest).map (fun v : ℕ => -(v : ℤ))
    else (decToNat cs).map (fun v : ℕ => (v : ℤ))

/-- Python `str(n)` for a natural number: most-significant-first decimal
digits, `"0"` for zero. -/
def natToDec (v : ℕ) : List Char :=
  if v = 0 then ['0'] else ((Nat.digits 10 v).reverse.map digitChar)

/-- Python `str(z)` for an integer: a minus sign followed by the digits of
the absolute value when negative. -/
def intToDec (z : ℤ) : List Char :=
  if z < 0 then '-' :: natToDec z.natAbs else natToDec z.natAbs

/-! ### The legacy object model (interchange only) -/

/-- Modelled from the spec (§6): the legacy team object, reduced to the
numeric team id that `Unit.from_lux` reads back
(`luxai2022.team.Team` is not part of the sources). -/
structure LuxTeam where
  team_id : ℤ
deriving DecidableEq, Repr

/-- Modelled from the spec (§6): the legacy engine's environment config,
reduced to the per-class robot config table that the legacy unit
constructor looks its config up in. -/
structure LuxEnvConfig where
  LIGHT : UnitConfig
  HEAVY : UnitConfig
deriving DecidableEq, Repr

/-- `EnvConfig` of `jux.config` (modelled from the spec), reduced to the
process-wide action-queue capacity that `Unit.from_lux` consumes. -/
structure EnvConfig where
  UNIT_ACTION_QUEUE_SIZE : ℕ
deriving DecidableEq, Repr

/-- Modelled from the spec (§6): the legacy unit record — team reference,
class, string id of the form `unit_<integer>`, position, cargo, power,
linear action list, and a per-class config.  Position, cargo and action
entries interchange value-for-value, so they reuse the jux types. -/
structure LuxUnit where
  team : LuxTeam
  unit_type : LuxUnitType
  unit_id : List Char
  unit_cfg : UnitConfig
  pos : Position
  cargo : UnitCargo
  power : ℤ
  action_queue : List UnitAction
deriving DecidableEq, Repr

/-- `Unit.from_lux` of `jux/unit.py`: the numeric id is
`int(lux_unit.unit_id[len('unit_'):])` — the first five characters are
sliced off unconditionally and the rest fed to `int` (no check that they
are `"unit_"`); the action list is converted through
`ActionQueue.from_lux`.  `none` embeds the exceptions either step raises. -/
def Unit.from_lux (lux_unit : LuxUnit) (env_cfg : EnvConfig) : Option Unit :=
  match pyInt (lux_unit.unit_id.drop 5),
        ActionQueue.from_lux lux_unit.action_queue env_cfg.UNIT_ACTION_QUEUE_SIZE with
  | some unit_id, some action_queue =>
    some { unit_type := UnitType.from_lux lux_unit.unit_type
           team_id := lux_unit.team.team_id
           unit_id := unit_id
           pos := lux_unit.pos
           cargo := lux_unit.cargo
           action_queue := action_queue
           unit_cfg := lux_unit.unit_cfg
           power := lux_unit.power }
  | _, _ => none

/-- `Unit.to_lux` of `jux/unit.py`: the team is looked up in the driver's
team table by the formatted id (embedded as a map from the numeric id),
the legacy constructor derives the config from the class and the legacy
env config, and the id string is `"unit_"` followed by the decimal id. -/
def Unit.to_lux (self : Unit) (lux_teams : ℤ → LuxTeam) (lux_env_cfg : LuxEnvConfig) :
    LuxUnit :=
  { team := lux_teams self.team_id
    unit_type := self.unit_type.to_lux
    unit_id := ['u', 'n', 'i', 't', '_'] ++ intToDec self.unit_id
    unit_cfg := match self.unit_type with
                | .LIGHT => lux_env_cfg.LIGHT
                | .HEAVY => lux_env_cfg.HEAVY
    pos := self.pos
    cargo := self.cargo
    power := self.power
    action_queue := self.action_queue.to_lux }

/-- Modelled from the spec (§4.2): `empty(capacity)` — capacity do-nothing
slots, front 0, count 0. -/
def ActionQueue.empty (capacity : ℕ) : ActionQueue :=
  ⟨List.replicate capacity UnitAction.do_nothing, 0, 0⟩

/-! ### Round-trip lemmas for the decimal id codec -/

lemma charDigit_digitChar {d : ℕ} (h : d < 10) : charDigit (digitChar d) = some d := by
  interval_cases d <;> rfl

lemma digitChar_ne_dash {d : ℕ} (h : d < 10) : digitChar d ≠ '-' := by
  interval_cases d <;> decide

lemma decToNat_of_ne_nil {cs : List Char} (h : cs ≠ []) :
    decToNat cs = cs.foldl decStep (some 0) := by
  cases cs with
  | nil => exact absurd rfl h
  | cons c cs => rfl

lemma foldl_decStep_digits (ds : List ℕ) (h : ∀ d ∈ ds, d < 10) (a : ℕ) :
    (ds.map digitChar).foldl decStep (some a) =
      some (ds.foldl (fun x d => x * 10 + d) a) := by
  induction ds generalizing a with
  | nil => rfl
  | cons d tl ih =>
    have hd : d < 10 := h d (List.mem_cons_self d tl)
    have htl : ∀ e ∈ tl, e < 10 := fun e he => h e (List.mem_cons_of_mem d he)
    simp only [List.map_cons, List.foldl_cons]
    have hstep : decStep (some a) (digitChar d) = some (a * 10 + d) := by
      simp [decStep, charDigit_digitChar hd]
    rw [hstep, ih htl]

lemma foldl_reverse_eq_ofDigits (ds : List ℕ) :
    ds.reverse.foldl (fun x d => x * 10 + d) 0 = Nat.ofDigits 10 ds := by
  induction ds with
  | nil => simp [Nat.ofDigits]
  | cons d tl ih =>
    simp only [List.reverse_cons, List.foldl_append, List.foldl_cons, List.foldl_nil,
      Nat.ofDigits_cons, ih]
    omega

lemma decToNat_natToDec (v : ℕ) : decToNat (natToDec v) = some v := by
  by_cases hv : v = 0
  · subst hv; rfl
  · have hne : Nat.digits 10 v ≠ [] := Nat.digits_ne_nil_iff_ne_zero.mpr hv
    have hlt : ∀ d ∈ (Nat.digits 10 v).reverse, d < 10 := by
      intro d hd
      exact Nat.digits_lt_base (by norm_num) (List.mem_reverse.mp hd)
    have hmapne : ((Nat.digits 10 v).reverse.map digitChar) ≠ [] := by
      simp [hne]
    rw [natToDec, if_neg hv, decToNat_of_ne_nil hmapne,
      foldl_decStep_digits _ hlt, foldl_reverse_eq_ofDigits, Nat.ofDigits_digits]

lemma pyInt_cons_of_ne_dash {c : Char} (rest : List Char) (h : c ≠ '-') :
    pyInt (c :: rest) = (decToNat (c :: rest)).map (fun v : ℕ => (v : ℤ)) := by
  rw [pyInt, if_neg h]

/-- The id codec round trip: rendering an integer with Python `str` and
parsing it back with Python `int` recovers the integer. -/
theorem pyInt_intToDec (z : ℤ) : pyInt (intToDec z) = some z := by
  by_cases hz : z < 0
  · rw [intToDec, if_pos hz]
    show pyInt ('-' :: natToDec z.natAbs) = some z
    rw [pyInt, if_pos rfl, decToNat_natToDec]
    simp only [Option.map_some']
    congr 1
    omega
  · rw [intToDec, if_neg hz]
    by_cases h0 : z.natAbs = 0
    · rw [h0]
      have : z = 0 := by omega
      subst this
      rfl
    · have hne : Nat.digits 10 z.natAbs ≠ [] := Nat.digits_ne_nil_iff_ne_zero.mpr h0
      rw [natToDec, if_neg h0]
      obtain ⟨d, ds, hds⟩ := List.exists_cons_of_ne_nil
        (by simpa using hne : (Nat.digits 10 z.natAbs).reverse ≠ [])
      have hd10 : d < 10 := by
        have : d ∈ (Nat.digits 10 z.natAbs).reverse := by rw [hds]; exact List.mem_cons_self d ds
        exact Nat.digits_lt_base (by norm_num) (List.mem_reverse.mp this)
      rw [hds, List.map_cons, pyInt_cons_of_ne_dash _ (digitChar_ne_dash hd10),
        ← List.map_cons, ← hds]
      have := decToNat_natToDec z.natAbs
      rw [natToDec, if_neg h0] at this
      rw [this]
      simp only [Option.map_some']
      congr 1
      omega

/-! ### Concrete fixtures -/

/-- The Light robot config of the spec's concrete scenario
(battery capacity 150). -/
def lightConfig : UnitConfig := ⟨1, 1, 100, 150, 1, 50⟩

/-- A Heavy robot config. -/
def heavyConfig : UnitConfig := ⟨20, 1, 1000, 3000, 10, 500⟩

/-- A jux env config with queue capacity 20. -/
def envConfig : EnvConfig := ⟨20⟩

/-- A legacy env config holding the two robot configs. -/
def luxEnvConfig : LuxEnvConfig := ⟨lightConfig, heavyConfig⟩

/-- A sample action entry with the given repeat counter. -/
def sampleAct (r : ℤ) : UnitAction := ⟨1, 2, 0, 4, r, 1⟩

/-- A sample 3-slot queue holding two entries. -/
def sampleQueue : ActionQueue :=
  ⟨[sampleAct 3, sampleAct (-1), UnitAction.do_nothing], 0, 2⟩

/-- The spec's concrete Light unit: battery capacity 150, power 100,
empty action queue. -/
def lightUnit : Unit :=
  ⟨lightConfig, .LIGHT, ActionQueue.empty 20, 0, 7, ⟨1, 2⟩, ⟨[0, 0, 0, 0]⟩, 100⟩

/-- The same Light unit at full battery. -/
def fullUnit : Unit := { lightUnit with power := 150 }

/-- The same Light unit with the sample non-empty queue. -/
def queuedUnit : Unit := { lightUnit with action_queue := sampleQueue }

/-! ### Shared helper lemmas -/

/-- The power invariant of the spec (§3). -/
def Unit.power_inv (self : Unit) : Prop :=
  0 ≤ self.power ∧ self.power ≤ (self.battery_capacity : ℤ)

instance (u : Unit) : Decidable u.power_inv := by
  unfold Unit.power_inv
  infer_instance

lemma UnitType.from_lux_to_lux (t : UnitType) : UnitType.from_lux t.to_lux = t := by
  cases t <;> rfl

lemma repeat_action_power (u : Unit) (s : Bool) :
    (u.repeat_action s).power = u.power := by
  rw [Unit.repeat_action]
  split
  · rfl
  · rfl

lemma repeat_action_battery (u : Unit) (s : Bool) :
    (u.repeat_action s).battery_capacity = u.battery_capacity := by
  rw [Unit.repeat_action]
  split
  · rfl
  · rfl

/-! ### Claim theorems -/

/-- C2: `add_resource(power, amount)` clamps the amount to `≥ 0`, transfers
exactly `min(battery_capacity − power, clamped amount)`, and returns the
unit with `power := power + transfer` together with the transfer; in
particular the Light unit with battery capacity 150 and power 100 given
`add_resource(power, 80)` ends at power 150 with transfer 50. -/
theorem claim2_add_resource_power :
    (∀ (u : Unit) (amount : ℤ),
      u.add_resource ResourceType.power amount =
        ({ u with power := u.power + min ((u.battery_capacity : ℤ) - u.power) (max amount 0) },
         min ((u.battery_capacity : ℤ) - u.power) (max amount 0))) ∧
    (lightUnit.add_resource ResourceType.power 80).1.power = 150 ∧
    (lightUnit.add_resource ResourceType.power 80).2 = 50 := by
  refine ⟨fun u amount => ?_, by decide, by decide⟩
  rw [Unit.add_resource]
  simp

/-- C8: `gain_power(power_gain_factor)` returns the unit with
`power = min(battery_capacity, power + ceil(CHARGE · power_gain_factor))`:
the gained amount is rounded up before the clamp to the battery capacity. -/
theorem claim8_gain_power (u : Unit) (power_gain_factor : ℚ) :
    u.gain_power power_gain_factor =
      { u with power := (min (u.battery_capacity : ℤ)
          (u.power + Int.ceil ((u.unit_cfg.CHARGE : ℚ) * power_gain_factor))) } := by
  rw [Unit.gain_power]
  rw [min_comm]

/-- C9: `Unit.__eq__` applied to any value that is not a `Unit` evaluates to
`False` (the `isinstance` guard short-circuits before any field access), for
a foreign value of any type. -/
theorem claim9_eq_foreign (α : Type) (u : Unit) (a : α) :
    u.eq (PyVal.foreign a) = false := rfl

/-- C10: `repeat_action` changes at most the `action_queue` field — config,
class, team id, unit id, position, cargo and power of the result equal those
of the input, for every unit and success flag. -/
theorem claim10_repeat_action_frame (u : Unit) (success : Bool) :
    (u.repeat_action success).unit_cfg = u.unit_cfg ∧
    (u.repeat_action success).unit_type = u.unit_type ∧
    (u.repeat_action success).team_id = u.team_id ∧
    (u.repeat_action success).unit_id = u.unit_id ∧
    (u.repeat_action success).pos = u.pos ∧
    (u.repeat_action success).cargo = u.cargo ∧
    (u.repeat_action success).power = u.power := by
  rw [Unit.repeat_action]
  split
  · exact ⟨rfl, rfl, rfl, rfl, rfl, rfl, rfl⟩
  · exact ⟨rfl, rfl, rfl, rfl, rfl, rfl, rfl⟩

/-- C4: `repeat_action` is the identity whenever the success flag is false,
and also on an empty queue even with success true: the whole unit state is
unchanged. -/
theorem claim4_repeat_action_noop (u : Unit) (success : Bool) :
    u.repeat_action false = u ∧
    (u.action_queue.count = 0 → u.repeat_action success = u) := by
  constructor
  · rw [Unit.repeat_action]
    simp
  · intro h
    rw [Unit.repeat_action]
    simp [ActionQueue.is_empty, h]

/-- Witness for C4 at a concrete input: an empty-queue unit is unchanged by
`repeat_action true`. -/
theorem claim4_repeat_action_noop_witness :
    lightUnit.repeat_action true = lightUnit :=
  (claim4_repeat_action_noop lightUnit true).2 (by decide)

/-- C7: with an empty queue, `next_action` returns the canonical do-nothing
action (never an error); with a non-empty queue it returns the entry at the
front slot.  It reads the queue only — in this embedding it is a pure
function of the unit and returns no modified unit at all. -/
theorem claim7_next_action (u : Unit) :
    (u.action_queue.count = 0 → u.next_action = UnitAction.do_nothing) ∧
    (u.action_queue.count ≠ 0 →
      u.next_action = u.action_queue.data.getD u.action_queue.front UnitAction.do_nothing) := by
  constructor
  · intro h
    rw [Unit.next_action]
    simp [ActionQueue.is_empty, h]
  · intro h
    rw [Unit.next_action]
    simp [ActionQueue.is_empty, h, ActionQueue.peek]

/-- Witness for C7 at concrete inputs: the empty-queue Light unit peeks the
do-nothing entry; the sample queued unit peeks its front entry. -/
theorem claim7_next_action_witness :
    lightUnit.next_action = UnitAction.do_nothing ∧
    queuedUnit.next_action =
      queuedUnit.action_queue.data.getD queuedUnit.action_queue.front UnitAction.do_nothing :=
  ⟨(claim7_next_action lightUnit).1 (by decide),
   (claim7_next_action queuedUnit).2 (by decide)⟩

/-- C1 counterexample: the claim includes `sub_resource` with negative
amounts, but `sub_resource` does not clamp its amount — at full battery
(power 150 = capacity 150), `sub_resource(power, −50)` transfers −50 and
leaves power 200 > battery capacity, violating the invariant. -/
theorem claim1_power_invariant_counterexample :
    fullUnit.power_inv ∧
    (fullUnit.sub_resource ResourceType.power (-50)).1.power = 200 ∧
    ¬ (fullUnit.sub_resource ResourceType.power (-50)).1.power_inv := by
  decide

/-- C1 amended: for a unit satisfying `0 ≤ power ≤ battery_capacity`, each
public operation returns a unit satisfying it again — `add_resource` for
every resource kind and every integer amount (including negative amounts,
which it clamps), `sub_resource` for every resource kind and every
nonnegative amount, `gain_power` for every factor `≥ 0`, `repeat_action`
for every success flag, and `next_action`, which leaves the unit
unchanged. -/
theorem claim1_power_invariant_amended (u : Unit) (resource : ResourceType)
    (amount addAmount : ℤ) (power_gain_factor : ℚ) (success : Bool)
    (hu : u.power_inv) (hamount : 0 ≤ amount) (hf : 0 ≤ power_gain_factor) :
    (u.add_resource resource addAmount).1.power_inv ∧
    (u.sub_resource resource amount).1.power_inv ∧
    (u.gain_power power_gain_factor).power_inv ∧
    (u.repeat_action success).power_inv ∧
    u.power_inv := by
  have h0 : 0 ≤ u.power := hu.1
  have hc : u.power ≤ (u.unit_cfg.BATTERY_CAPACITY : ℤ) := hu.2
  refine ⟨?_, ?_, ?_, ?_, hu⟩
  · rw [Unit.add_resource]
    split
    · simp only [Unit.power_inv, Unit.battery_capacity, min_def, max_def]
      split_ifs <;> constructor <;> omega
    · exact hu
  · rw [Unit.sub_resource]
    split
    · simp only [Unit.power_inv, Unit.battery_capacity, min_def]
      split_ifs <;> constructor <;> omega
    · exact hu
  · have hceil : 0 ≤ Int.ceil ((u.unit_cfg.CHARGE : ℚ) * power_gain_factor) :=
      Int.ceil_nonneg (mul_nonneg (by positivity) hf)
    rw [Unit.gain_power]
    simp only [Unit.power_inv, Unit.battery_capacity, min_def]
    split_ifs <;> constructor <;> omega
  · rw [Unit.power_inv, repeat_action_power, repeat_action_battery]
    exact hu

/-- Witness for the amended C1 at a concrete input. -/
theorem claim1_power_invariant_amended_witness :
    (lightUnit.add_resource ResourceType.power (-5)).1.power_inv ∧
    (lightUnit.sub_resource ResourceType.power 3).1.power_inv ∧
    (lightUnit.gain_power 1).power_inv ∧
    (lightUnit.repeat_action true).power_inv ∧
    lightUnit.power_inv := by
  have h := claim1_power_invariant_amended lightUnit ResourceType.power 3 (-5) 1 true
    (by decide) (by decide) (by norm_num)
  exact h

lemma ActionQueue.peek_of_ne (q : ActionQueue) (h : q.count ≠ 0) :
    q.peek = q.data.getD q.front UnitAction.do_nothing := by
  rw [ActionQueue.peek, if_neg h]

lemma ActionQueue.pop_of_ne (q : ActionQueue) (h : q.count ≠ 0) :
    q.pop = (q.data.getD q.front UnitAction.do_nothing,
             { q with front := (q.front + 1) % q.capacity, count := q.count - 1 }) := by
  rw [ActionQueue.pop, if_neg h]

lemma repeat_action_true_of_ne (u : Unit) (h : u.action_queue.count ≠ 0) :
    u.repeat_action true = u.repeat_action_core := by
  rw [Unit.repeat_action]
  simp [ActionQueue.is_empty, h]

lemma repeat_action_core_pos (u : Unit) (h : 0 < u.action_queue.peek.rep) :
    u.repeat_action_core = { u with action_queue := u.action_queue.repeat_minus_one } := by
  rw [Unit.repeat_action_core]
  have h2 : ¬ u.action_queue.peek.rep < 0 := by omega
  simp only [gt_iff_lt, h, if_pos, h2, if_neg, ite_false, ite_true, mul_zero, zero_mul]

lemma repeat_action_core_neg (u : Unit) (h : u.action_queue.peek.rep < 0) :
    u.repeat_action_core = { u with action_queue := u.action_queue.pop_and_push_back } := by
  rw [Unit.repeat_action_core]
  have h2 : ¬ u.action_queue.peek.rep > 0 := by omega
  simp only [gt_iff_lt, h, h2, ite_false, ite_true]

lemma repeat_action_core_zero (u : Unit) (h : u.action_queue.peek.rep = 0) :
    u.repeat_action_core = { u with action_queue := u.action_queue.pop.2 } := by
  rw [Unit.repeat_action_core]
  have h1 : ¬ u.action_queue.peek.rep > 0 := by omega
  have h2 : ¬ u.action_queue.peek.rep < 0 := by omega
  simp only [gt_iff_lt, h1, h2, ite_false]

/-- C3: on a non-empty (well-formed) queue, `repeat_action(true)` does
exactly one of the three things, keyed by the `repeat` field `r` of the
front entry: `r > 0` — decrement `r` in place at the front slot (entry
stays at the front, count unchanged); `r < 0` — pop the front entry and
push an unmodified copy of it to the back slot (count unchanged); `r = 0`
— pop the front entry and discard it (count drops by one). -/
theorem claim3_repeat_action_nonempty (u : Unit)
    (hne : u.action_queue.count ≠ 0)
    (hcnt : u.action_queue.count ≤ u.action_queue.capacity)
    (hfr : u.action_queue.front < u.action_queue.capacity) :
    (0 < u.action_queue.peek.rep →
      (u.repeat_action true).action_queue.data =
        u.action_queue.data.set u.action_queue.front
          { u.action_queue.peek with rep := u.action_queue.peek.rep - 1 } ∧
      (u.repeat_action true).action_queue.front = u.action_queue.front ∧
      (u.repeat_action true).action_queue.count = u.action_queue.count ∧
      (u.repeat_action true).action_queue.peek =
        { u.action_queue.peek with rep := u.action_queue.peek.rep - 1 }) ∧
    (u.action_queue.peek.rep < 0 →
      (u.repeat_action true).action_queue.data =
        u.action_queue.data.set
          ((u.action_queue.front + u.action_queue.count) % u.action_queue.capacity)
          u.action_queue.peek ∧
      (u.repeat_action true).action_queue.front =
        (u.action_queue.front + 1) % u.action_queue.capacity ∧
      (u.repeat_action true).action_queue.count = u.action_queue.count) ∧
    (u.action_queue.peek.rep = 0 →
      (u.repeat_action true).action_queue.data = u.action_queue.data ∧
      (u.repeat_action true).action_queue.front =
        (u.action_queue.front + 1) % u.action_queue.capacity ∧
      (u.repeat_action true).action_queue.count = u.action_queue.count - 1) := by
  have hpeek := u.action_queue.peek_of_ne hne
  have hflen : u.action_queue.front < u.action_queue.data.length := hfr
  refine ⟨fun hp => ?_, fun hm => ?_, fun hz => ?_⟩
  · rw [repeat_action_true_of_ne u hne, repeat_action_core_pos u hp]
    show (u.action_queue.repeat_minus_one.data = _ ∧ _ ∧ _ ∧ _)
    rw [ActionQueue.repeat_minus_one, ← hpeek]
    refine ⟨rfl, rfl, rfl, ?_⟩
    rw [ActionQueue.peek_of_ne]
    · rw [hpeek]
      simp only [List.getD_eq_getElem?_getD, List.getElem?_set_self hflen, Option.getD_some]
    · exact hne
  · rw [repeat_action_true_of_ne u hne, repeat_action_core_neg u hm]
    show (u.action_queue.pop_and_push_back.data = _ ∧ _ ∧ _)
    rw [ActionQueue.pop_and_push_back, ActionQueue.pop_of_ne _ hne, ← hpeek]
    have hcap0 : 0 < u.action_queue.capacity := Nat.lt_of_le_of_lt (Nat.zero_le _) hfr
    have hlt : u.action_queue.count - 1 < u.action_queue.capacity := by omega
    have hnotfull : ¬ (u.action_queue.count - 1 = u.action_queue.capacity) := by omega
    rw [ActionQueue.push_back]
    simp only [ActionQueue.capacity] at hnotfull ⊢
    rw [if_neg hnotfull]
    refine ⟨?_, rfl, ?_⟩
    · have harith :
          ((u.action_queue.front + 1) % u.action_queue.data.length +
              (u.action_queue.count - 1)) % u.action_queue.data.length =
            (u.action_queue.front + u.action_queue.count) % u.action_queue.data.length := by
        rw [Nat.mod_add_mod]
        congr 1
        omega
      simp only [harith]
    · show u.action_queue.count - 1 + 1 = u.action_queue.count
      omega
  · rw [repeat_action_true_of_ne u hne, repeat_action_core_zero u hz]
    show (u.action_queue.pop.2.data = _ ∧ _ ∧ _)
    rw [ActionQueue.pop_of_ne _ hne]
    exact ⟨rfl, rfl, rfl⟩

/-- Witness for C3 at a concrete input: the sample queued unit (front entry
repeat 3, second entry repeat −1, count 2 of capacity 3) satisfies the three
hypotheses, instantiating the theorem. -/
theorem claim3_repeat_action_nonempty_witness :
    (0 < queuedUnit.action_queue.peek.rep →
      (queuedUnit.repeat_action true).action_queue.data =
        queuedUnit.action_queue.data.set queuedUnit.action_queue.front
          { queuedUnit.action_queue.peek with rep := queuedUnit.action_queue.peek.rep - 1 } ∧
      (queuedUnit.repeat_action true).action_queue.front = queuedUnit.action_queue.front ∧
      (queuedUnit.repeat_action true).action_queue.count = queuedUnit.action_queue.count ∧
      (queuedUnit.repeat_action true).action_queue.peek =
        { queuedUnit.action_queue.peek with rep := queuedUnit.action_queue.peek.rep - 1 }) ∧
    (queuedUnit.action_queue.peek.rep < 0 →
      (queuedUnit.repeat_action true).action_queue.data =
        queuedUnit.action_queue.data.set
          ((queuedUnit.action_queue.front + queuedUnit.action_queue.count) %
            queuedUnit.action_queue.capacity)
          queuedUnit.action_queue.peek ∧
      (queuedUnit.repeat_action true).action_queue.front =
        (queuedUnit.action_queue.front + 1) % queuedUnit.action_queue.capacity ∧
      (queuedUnit.repeat_action true).action_queue.count = queuedUnit.action_queue.count) ∧
    (queuedUnit.action_queue.peek.rep = 0 →
      (queuedUnit.repeat_action true).action_queue.data = queuedUnit.action_queue.data ∧
      (queuedUnit.repeat_action true).action_queue.front =
        (queuedUnit.action_queue.front + 1) % queuedUnit.action_queue.capacity ∧
      (queuedUnit.repeat_action true).action_queue.count =
        queuedUnit.action_queue.count - 1) :=
  claim3_repeat_action_nonempty queuedUnit (by decide) (by decide) (by decide)

lemma ActionQueue.to_lux_length (q : ActionQueue) : q.to_lux.length = q.count := by
  rw [ActionQueue.to_lux, List.length_map, List.length_range]

lemma ActionQueue.to_lux_from_lux (acts : List UnitAction) (c : ℕ)
    (h : acts.length ≤ c) (q : ActionQueue)
    (hq : ActionQueue.from_lux acts c = some q) : q.to_lux = acts := by
  rw [ActionQueue.from_lux, if_pos h, Option.some_inj] at hq
  subst hq
  have hcap : (acts ++ List.replicate (c - acts.length) UnitAction.do_nothing).length = c := by
    rw [List.length_append, List.length_replicate]
    omega
  rw [ActionQueue.to_lux]
  apply List.ext_get
  · simp
  · intro i h1 h2
    have hi : i < acts.length := h2
    simp only [List.get_eq_getElem, List.getElem_map, List.getElem_range]
    show (acts ++ List.replicate (c - acts.length) UnitAction.do_nothing).getD
        ((0 + i) % (acts ++ List.replicate (c - acts.length) UnitAction.do_nothing).length)
        UnitAction.do_nothing = acts[i]
    rw [hcap, Nat.zero_add, Nat.mod_eq_of_lt (by omega), List.getD_eq_getElem?_getD,
      List.getElem?_append_left hi, List.getElem?_eq_getElem hi, Option.getD_some]

/-- C6 counterexample: the inbound id string `"robot666"` does not begin
with `"unit_"`, yet `from_lux` accepts the unit silently, extracting id 666
from the five-character slice — there is no prefix check. -/
def roboLux : LuxUnit :=
  ⟨⟨0⟩, .LIGHT, ['r', 'o', 'b', 'o', 't', '6', '6', '6'], lightConfig,
    ⟨0, 0⟩, ⟨[0, 0, 0, 0]⟩, 60, []⟩

/-- C6 counterexample: `from_lux` run on a legacy unit whose id string
`"robot666"` does not begin with `"unit_"` succeeds (no hard failure) and
silently yields a `Unit` with numeric id 666. -/
theorem claim6_from_lux_counterexample :
    ['u', 'n', 'i', 't', '_'].isPrefixOf roboLux.unit_id = false ∧
    (Unit.from_lux roboLux envConfig).map Unit.unit_id = some 666 := by
  decide

lemma ActionQueue.from_lux_eq_none_iff (acts : List UnitAction) (c : ℕ) :
    ActionQueue.from_lux acts c = none ↔ c < acts.length := by
  rw [ActionQueue.from_lux]
  split_ifs with h
  · simp only [reduceCtorEq, false_iff]
    omega
  · simp only [true_iff]
    omega

/-- C6 amended: `from_lux` hard-fails exactly when the characters after the
first five of the inbound id do not parse as an integer, or the legacy
action list exceeds the queue capacity; an id string that does not begin
with `"unit_"` is silently accepted whenever its tail after five characters
is numeric (as the counterexample shows). -/
theorem claim6_from_lux_failure_amended (lux_unit : LuxUnit) (env_cfg : EnvConfig) :
    Unit.from_lux lux_unit env_cfg = none ↔
      (pyInt (lux_unit.unit_id.drop 5) = none ∨
       env_cfg.UNIT_ACTION_QUEUE_SIZE < lux_unit.action_queue.length) := by
  rw [Unit.from_lux, ← ActionQueue.from_lux_eq_none_iff lux_unit.action_queue
    env_cfg.UNIT_ACTION_QUEUE_SIZE]
  rcases h1 : pyInt (lux_unit.unit_id.drop 5) with _ | v <;>
    rcases h2 : ActionQueue.from_lux lux_unit.action_queue env_cfg.UNIT_ACTION_QUEUE_SIZE
      with _ | q <;>
    simp

/-- C5: converting a (well-formed) unit to the legacy representation and
back reproduces unit id, team id, class, position, cargo, power, and the
full action-queue contents in order (the per-class config is reconstructed
from the class on the inbound path, and the textual id `unit_<integer>` is
re-derived from the numeric id on the outbound path).  Hypotheses: the
driver's team table maps the unit's team id to a team carrying that id, the
process-wide queue capacity matches, and the queue is within capacity. -/
theorem claim5_lux_round_trip (u : Unit) (lux_teams : ℤ → LuxTeam)
    (lux_env_cfg : LuxEnvConfig) (env_cfg : EnvConfig)
    (hteam : (lux_teams u.team_id).team_id = u.team_id)
    (hcap : env_cfg.UNIT_ACTION_QUEUE_SIZE = u.action_queue.capacity)
    (hcnt : u.action_queue.count ≤ u.action_queue.capacity) :
    ∃ v : Unit,
      Unit.from_lux (u.to_lux lux_teams lux_env_cfg) env_cfg = some v ∧
      v.unit_id = u.unit_id ∧ v.team_id = u.team_id ∧ v.unit_type = u.unit_type ∧
      v.pos = u.pos ∧ v.cargo = u.cargo ∧ v.power = u.power ∧
      v.action_queue.to_lux = u.action_queue.to_lux := by
  have hid : pyInt ((u.to_lux lux_teams lux_env_cfg).unit_id.drop 5) = some u.unit_id := by
    show pyInt ((['u', 'n', 'i', 't', '_'] ++ intToDec u.unit_id).drop 5) = some u.unit_id
    have h5 : (['u', 'n', 'i', 't', '_'] ++ intToDec u.unit_id).drop 5 = intToDec u.unit_id :=
      List.drop_left ['u', 'n', 'i', 't', '_'] (intToDec u.unit_id)
    rw [h5, pyInt_intToDec]
  have hlen : (u.to_lux lux_teams lux_env_cfg).action_queue.length
      ≤ env_cfg.UNIT_ACTION_QUEUE_SIZE := by
    show u.action_queue.to_lux.length ≤ _
    rw [ActionQueue.to_lux_length, hcap]
    exact hcnt
  obtain ⟨q, hq⟩ : ∃ q, ActionQueue.from_lux (u.to_lux lux_teams lux_env_cfg).action_queue
      env_cfg.UNIT_ACTION_QUEUE_SIZE = some q := by
    rw [ActionQueue.from_lux, if_pos hlen]
    exact ⟨_, rfl⟩
  refine ⟨{ unit_cfg := (u.to_lux lux_teams lux_env_cfg).unit_cfg
            unit_type := UnitType.from_lux (u.to_lux lux_teams lux_env_cfg).unit_type
            action_queue := q
            team_id := (u.to_lux lux_teams lux_env_cfg).team.team_id
            unit_id := u.unit_id
            pos := (u.to_lux lux_teams lux_env_cfg).pos
            cargo := (u.to_lux lux_teams lux_env_cfg).cargo
            power := (u.to_lux lux_teams lux_env_cfg).power }, ?_, rfl, hteam,
    UnitType.from_lux_to_lux u.unit_type, rfl, rfl, rfl,
    ActionQueue.to_lux_from_lux _ _ hlen q hq⟩
  rw [Unit.from_lux, hid, hq]

/-- Witness for C5 at a concrete input: the sample queued unit, a team table
mapping each id to a team with that id, and a matching queue capacity. -/
theorem claim5_lux_round_trip_witness :
    ∃ v : Unit,
      Unit.from_lux (queuedUnit.to_lux (fun i => ⟨i⟩) luxEnvConfig) ⟨3⟩ = some v ∧
      v.unit_id = queuedUnit.unit_id ∧ v.team_id = queuedUnit.team_id ∧
      v.unit_type = queuedUnit.unit_type ∧ v.pos = queuedUnit.pos ∧
      v.cargo = queuedUnit.cargo ∧ v.power = queuedUnit.power ∧
      v.action_queue.to_lux = queuedUnit.action_queue.to_lux :=
  claim5_lux_round_trip queuedUnit (fun i => ⟨i⟩) luxEnvConfig ⟨3⟩ rfl (by decide) (by decide)

end jux
